import Mathlib

/-!
Verification of the scheduling / caching / account-consistency core of the
TradingSystem repository, as a shallow embedding in Lean 4.

Money and prices are embedded as exact rationals (`ℚ`); Python dictionaries
over symbols are embedded as association lists with Python `dict` semantics
(`dictGet` / `dictSet` / `dictDel`); wall-clock readings and network results
(current prices, upstream market status, stored rows) are passed to the
embedded functions as explicit parameters, since the source obtains them
through I/O.  Each `raise` site of the source is mapped to a distinct
`AccountError` value, and every mutating operation returns the post-state
together with the raised error, the post-state being the unchanged input
exactly when the source raises before any mutation.
-/

namespace TradingSystem

/-! ### Constants (src/trading_system/accounts.py, lines 11-12) -/

def INITIAL_BALANCE : ℚ := 10000

def SPREAD : ℚ := 1/500

/-! ### Python dict embedding

`holdings` is a Python `dict[str, int]`.  We embed it as an association
list; `dictGet d k` is `d.get(k, 0)`, `dictSet d k v` is `d[k] = v`
(replace in place, or append a new entry), `dictDel d k` is `del d[k]`,
`dictMem d k` is `k in d`. -/

def dictGet (d : List (String × Int)) (k : String) : Int :=
  match d.find? (fun p => p.1 == k) with
  | some p => p.2
  | none => 0

def dictMem (d : List (String × Int)) (k : String) : Bool :=
  d.any (fun p => p.1 == k)

def dictSet (d : List (String × Int)) (k : String) (v : Int) : List (String × Int) :=
  if dictMem d k then d.map (fun p => if p.1 == k then (k, v) else p)
  else d ++ [(k, v)]

def dictDel (d : List (String × Int)) (k : String) : List (String × Int) :=
  d.filter (fun p => p.1 != k)

/-! ### Transaction (accounts.py, lines 58-69) -/

structure Transaction where
  symbol : String
  quantity : Int
  price : ℚ
  timestamp : String
  rationale : String
deriving Repr, DecidableEq

/-! ### Account state (accounts.py, lines 72-78) -/

structure Account where
  name : String
  balance : ℚ
  strategy : String
  holdings : List (String × Int)
  transactions : List Transaction
  portfolio_value_time_series : List (String × ℚ)
deriving Repr, DecidableEq

/-- Each distinct `raise` site of `accounts.py` is mapped to one error value.
`keyError` is the implicit `KeyError` of `self.holdings[symbol] -= quantity`
when the symbol is absent (reachable only for non-positive quantities). -/
inductive AccountError where
  | invalidAmount
  | insufficientFunds
  | priceUnavailable (symbol : String)
  | insufficientShares (symbol : String) (requested : Int) (held : Int)
  | keyError (symbol : String)
deriving Repr, DecidableEq

/-- Embeds `calculate_portfolio_value` (accounts.py, lines 291-297): cash balance
plus the sum over holdings of current price times quantity.  `priceOf` embeds
`get_current_price`, which returns `0` when no price is available, so an
unpriceable holding contributes 0. -/
def Account.calculate_portfolio_value (a : Account) (priceOf : String → ℚ) : ℚ :=
  a.balance + (a.holdings.map (fun p => priceOf p.1 * (p.2 : ℚ))).sum

/-- The state effect of `report` (accounts.py, lines 326-338): computes the
portfolio value and appends `(now, value)` to the valuation series
unconditionally. -/
def Account.report_state (a : Account) (priceOf : String → ℚ) (ts : String) : Account :=
  { a with portfolio_value_time_series :=
      a.portfolio_value_time_series ++ [(ts, a.calculate_portfolio_value priceOf)] }

/-- Embeds `update_portfolio_value_series` (accounts.py, lines 316-324): appends
`(now, value)` only if the series is empty or the last recorded timestamp
differs from `ts`. -/
def Account.update_portfolio_value_series (a : Account) (priceOf : String → ℚ)
    (ts : String) : Account :=
  if a.portfolio_value_time_series = [] ∨
      a.portfolio_value_time_series.getLast?.map Prod.fst ≠ some ts then
    { a with portfolio_value_time_series :=
        a.portfolio_value_time_series ++ [(ts, a.calculate_portfolio_value priceOf)] }
  else a

/-- Embeds `deposit` (accounts.py, lines 200-206). -/
def Account.deposit (a : Account) (amount : ℚ) : Account × Option AccountError :=
  if amount ≤ 0 then (a, some .invalidAmount)
  else ({ a with balance := a.balance + amount }, none)

/-- Embeds `withdraw` (accounts.py, lines 208-214). -/
def Account.withdraw (a : Account) (amount : ℚ) : Account × Option AccountError :=
  if a.balance < amount then (a, some .insufficientFunds)
  else ({ a with balance := a.balance - amount }, none)

/-- Embeds `buy_shares` (accounts.py, lines 216-249).  `priceOf` stands for
`get_current_price`; `tradeTs` is the `datetime.now()` at line 233 and
`reportTs` the one taken inside the final `self.report()` call. -/
def Account.buy_shares (a : Account) (symbol : String) (quantity : Int)
    (priceOf : String → ℚ) (rationale tradeTs reportTs : String) :
    Account × Option AccountError :=
  let price := priceOf symbol
  if price = 0 then (a, some (.priceUnavailable symbol))
  else
    let buy_price := price * (1 + SPREAD)
    let total_cost := buy_price * (quantity : ℚ)
    if a.balance < total_cost then (a, some .insufficientFunds)
    else
      let a1 : Account := { a with
        holdings := dictSet a.holdings symbol (dictGet a.holdings symbol + quantity),
        transactions := a.transactions ++
          [⟨symbol, quantity, buy_price, tradeTs, rationale⟩] }
      let a2 : Account := { a1 with balance := a1.balance - total_cost }
      (a2.report_state priceOf reportTs, none)

/-- Embeds `sell_shares` (accounts.py, lines 251-289). -/
def Account.sell_shares (a : Account) (symbol : String) (quantity : Int)
    (priceOf : String → ℚ) (rationale tradeTs reportTs : String) :
    Account × Option AccountError :=
  if dictGet a.holdings symbol < quantity then
    (a, some (.insufficientShares symbol quantity (dictGet a.holdings symbol)))
  else
    let price := priceOf symbol
    if price = 0 then (a, some (.priceUnavailable symbol))
    else if ¬ dictMem a.holdings symbol then (a, some (.keyError symbol))
    else
      let sell_price := price * (1 - SPREAD)
      let total_proceeds := sell_price * (quantity : ℚ)
      let n := dictGet a.holdings symbol - quantity
      let holdings1 := dictSet a.holdings symbol n
      let holdings2 := if n = 0 then dictDel holdings1 symbol else holdings1
      let a1 : Account := { a with
        holdings := holdings2,
        transactions := a.transactions ++
          [⟨symbol, -quantity, sell_price, tradeTs, rationale⟩] }
      let a2 : Account := { a1 with balance := a1.balance + total_proceeds }
      (a2.report_state priceOf reportTs, none)

/-- The account created by `Account.get` when no stored row is usable
(accounts.py, lines 127-135), before the initial valuation sample. -/
def defaultAccount (name : String) : Account :=
  { name := name.toLower
    balance := INITIAL_BALANCE
    strategy := ""
    holdings := []
    transactions := []
    portfolio_value_time_series := [] }

/-- Outcome of the storage read performed by `Account.get`
(accounts.py, lines 89-125): a stored row, no row, or a raised error. -/
inductive StoredRead where
  | row (balance : ℚ) (strategy : String) (holdings : List (String × Int))
      (transactions : List Transaction) (history : List (String × ℚ))
  | noRow
  | readError (msg : String)

/-- Embeds `Account.get` (accounts.py, lines 80-140): loads the stored row when the
read yields one; on no row, or on any exception raised by the read, builds
the default account and records an initial valuation sample. -/
def Account.get (name : String) (read : StoredRead) (priceOf : String → ℚ)
    (ts : String) : Account :=
  match read with
  | .row b s h t ph =>
      { name := name.toLower, balance := b, strategy := s, holdings := h,
        transactions := t, portfolio_value_time_series := ph }
  | .noRow => (defaultAccount name).update_portfolio_value_series priceOf ts
  | .readError _ => (defaultAccount name).update_portfolio_value_series priceOf ts

/-! ### Scheduler (src/trading_system/trading_floor.py)

Wall-clock readings are embedded as `(hour, minute)` pairs of the current
US-Eastern time, and `weekday` as Python's `datetime.weekday()` value
(Monday = 0, Saturday = 5, Sunday = 6).  The source forms the decimal hour
`hour + minute / 60`, embedded exactly in `ℚ`. -/

def hourDecimal (hour minute : ℕ) : ℚ :=
  (hour : ℚ) + (minute : ℚ) / 60

/-- The eventual answer of the upstream market-status chain consulted by
`is_market_open` (trading_floor.py, lines 98-136): Polygon first, then the
Alpha Vantage fallback, each failure path of the source being one
constructor. -/
inductive UpstreamStatus where
  | polygonOk (market_open : Bool)
  | alphaFound (market_open : Bool)
  | alphaNoKey
  | alphaNotFound
  | allFailed
deriving Repr, DecidableEq

/-- Embeds `is_market_open` (trading_floor.py, lines 80-136): the
`FORCE_MARKET_OPEN` override is tested first; then weekend; then the
09:30-16:00 ET window; then the upstream chain, every failure of which
yields `false`. -/
def is_market_open (force_market_open : Bool) (weekday hour minute : ℕ)
    (upstream : UpstreamStatus) : Bool :=
  if force_market_open then true
  else if 5 ≤ weekday then false
  else if ¬ (19/2 ≤ hourDecimal hour minute ∧ hourDecimal hour minute ≤ 16) then false
  else
    match upstream with
    | .polygonOk b => b
    | .alphaFound b => b
    | .alphaNoKey => false
    | .alphaNotFound => false
    | .allFailed => false

/-- Embeds `should_trade_now` (trading_floor.py, lines 139-160). -/
def should_trade_now (trader_name : String) (hour minute : ℕ) : Bool :=
  if trader_name = "flash" then
    let t := hourDecimal hour minute
    if |t - 10| ≤ 1/2 ∨ |t - 13| ≤ 1/2 ∨ |t - 31/2| ≤ 1/2 then true else false
  else if trader_name = "warren" ∨ trader_name = "camillo" then
    if 31/2 ≤ hourDecimal hour minute ∧ hourDecimal hour minute ≤ 16 then true else false
  else false

/-- Embeds `should_rebalance_now` (trading_floor.py, lines 163-184). -/
def should_rebalance_now (trader_name : String) (hour minute : ℕ) : Bool :=
  if trader_name = "flash" then
    let t := hourDecimal hour minute
    if |t - 21/2| ≤ 1/4 ∨ |t - 27/2| ≤ 1/4 ∨ |t - 63/4| ≤ 1/4 then true else false
  else if trader_name = "warren" ∨ trader_name = "camillo" then
    if 65/4 ≤ hourDecimal hour minute ∧ hourDecimal hour minute ≤ 33/2 then true else false
  else false

/-- The trader names instantiated by `create_traders`
(trading_floor.py, lines 655-658). -/
def trader_names : List String := ["warren", "camillo", "pavel"]

/-! ### Coordinator: `Trader.execute_decision` (trading_floor.py, lines 502-541) -/

/-- The structured decision handed to `execute_decision`; `symbol` defaults
to `""` and `quantity` to `0` when absent, as in the source's `dict.get`. -/
structure Decision where
  decision : String
  symbol : String
  quantity : Int
  rationale : String
deriving Repr, DecidableEq

/-- One constructor per distinct return site of `execute_decision`:
the HOLD early return, "Cannot afford any shares", the partial and full
"BUY executed" returns, "SELL executed", "Invalid decision parameters",
and the `except` catch-all "Trade execution failed". -/
inductive ExecOutcome where
  | hold (rationale : String)
  | cannotAfford (symbol : String)
  | buyExecutedPartial (requested actual : Int)
  | buyExecuted (quantity : Int)
  | sellExecuted (quantity : Int)
  | invalidParameters
  | tradeFailed (e : AccountError)
deriving Repr, DecidableEq

/-- Embeds `Trader.execute_decision` (trading_floor.py, lines 502-541).  For a BUY
with a symbol and positive quantity it clamps the quantity to
`int(balance // current_price)` (spread-exclusive) and calls `buy_shares`
with the clamped quantity; any exception raised by the account operation is
caught and reported as `tradeFailed`. -/
def execute_decision (account : Account) (d : Decision) (priceOf : String → ℚ)
    (tradeTs reportTs : String) : Account × ExecOutcome :=
  if d.decision = "HOLD" then (account, .hold d.rationale)
  else if d.decision = "BUY" ∧ d.symbol ≠ "" ∧ 0 < d.quantity then
    let current_price := priceOf d.symbol
    let max_affordable : Int :=
      if 0 < current_price then ⌊account.balance / current_price⌋ else 0
    if max_affordable = 0 then (account, .cannotAfford d.symbol)
    else
      let actual_quantity := min d.quantity max_affordable
      match account.buy_shares d.symbol actual_quantity priceOf d.rationale tradeTs reportTs with
      | (a2, none) =>
          if actual_quantity < d.quantity then
            (a2, .buyExecutedPartial d.quantity actual_quantity)
          else (a2, .buyExecuted actual_quantity)
      | (a2, some e) => (a2, .tradeFailed e)
  else if d.decision = "SELL" ∧ d.symbol ≠ "" ∧ 0 < d.quantity then
    match account.sell_shares d.symbol d.quantity priceOf d.rationale tradeTs reportTs with
    | (a2, none) => (a2, .sellExecuted d.quantity)
    | (a2, some e) => (a2, .tradeFailed e)
  else (account, .invalidParameters)

/-! ### CacheStore (src/trading_system/database.py)

Time is embedded as whole seconds (`Int`), matching the second-resolution
timestamps the source stores.  The source reads two distinct clocks:
`check_api_cache` computes the staleness cutoff from the host-local
`datetime.now()` (database.py, line 242) but the reported age from
`datetime.utcnow()` (line 267), while `created_at` is stamped by the
database's `CURRENT_TIMESTAMP` default (database.py, line 76), which is
UTC — so the two readings coincide only on a host whose local clock is
UTC, and are embedded as separate parameters.  The md5 over the sorted-key
JSON of the parameters is embedded as the normalized parameter list itself
(sorted by key), which is deterministic and order-independent exactly as
`generate_params_hash` is. -/

/-- Embeds `generate_params_hash` (database.py, lines 229-233): a deterministic,
order-independent key for a parameter set. -/
def generate_params_hash (params : List (String × String)) : List (String × String) :=
  params.mergeSort (fun p q => p.1 ≤ q.1)

/-- One row of `raw_api_calls` (database.py, lines 64-78). -/
structure ApiRecord where
  provider : String
  function_name : String
  params_hash : List (String × String)
  response_data : String
  success : Bool
  created_at : Int
deriving Repr, DecidableEq

/-- Whether a record matches the cache key of a lookup. -/
def keyMatches (r : ApiRecord) (provider function_name : String)
    (h : List (String × String)) : Bool :=
  r.provider == provider && r.function_name == function_name && r.params_hash == h

/-- Embeds `ORDER BY created_at DESC LIMIT 1` over a list of candidate rows. -/
def latestRecord : List ApiRecord → Option ApiRecord
  | [] => none
  | r :: rs =>
      match latestRecord rs with
      | none => some r
      | some best => if best.created_at ≤ r.created_at then some r else some best

/-- Embeds `check_api_cache` (database.py, lines 235-271): hashes the parameters,
then returns the most recent successful record with matching
(provider, function, hash) whose UTC `created_at` is strictly newer than
the cutoff `now_local - ttl` taken from the host-local `datetime.now()`
(line 242), together with its payload and its age computed against the
separate `datetime.utcnow()` reading `now_utc` (line 267); `none` is a
miss.  On a host whose local clock is UTC the two readings at one call
instant are equal; otherwise they differ by the host's UTC offset. -/
def check_api_cache (db : List ApiRecord) (provider function_name : String)
    (params : List (String × String)) (cache_ttl_seconds : Int)
    (now_local now_utc : Int) : Option (String × Int) :=
  let params_hash := generate_params_hash params
  let cutoff_time := now_local - cache_ttl_seconds
  let candidates := db.filter (fun r =>
    keyMatches r provider function_name params_hash
      && decide (cutoff_time < r.created_at) && r.success)
  match latestRecord candidates with
  | some r => some (r.response_data, now_utc - r.created_at)
  | none => none

/-- Embeds `save_api_call` (database.py, lines 273-306): appends a new row, unless
the `UNIQUE(provider, function_name, parameters_hash)` constraint is
violated, in which case the insert error is swallowed and the table is left
unchanged.  `now_utc` is the UTC timestamp the database's
`CURRENT_TIMESTAMP` default stamps into `created_at`. -/
def save_api_call (db : List ApiRecord) (provider function_name : String)
    (params : List (String × String)) (response_data : String) (success : Bool)
    (now_utc : Int) : List ApiRecord :=
  let params_hash := generate_params_hash params
  if db.any (fun r => keyMatches r provider function_name params_hash) then db
  else db ++ [⟨provider, function_name, params_hash, response_data, success, now_utc⟩]

/-! ### Helper lemmas about the dict embedding -/

lemma find?_map_replace (d : List (String × Int)) (k : String) (v : Int) :
    (d.map (fun p => if p.1 == k then (k, v) else p)).find? (fun p => p.1 == k)
      = if dictMem d k then some (k, v) else none := by
  induction d with
  | nil => simp [dictMem]
  | cons a tl ih =>
      by_cases h : a.1 == k
      · simp only [List.map_cons, if_pos h, List.find?_cons, beq_self_eq_true]
        simp [dictMem, h]
      · have h' : (a.1 == k) = false := by simpa using h
        simp only [List.map_cons, if_neg h, List.find?_cons]
        simp only [h']
        rw [ih]
        unfold dictMem
        rw [List.any_cons, h', Bool.false_or]

lemma find?_eq_none_of_not_dictMem (d : List (String × Int)) (k : String)
    (h : dictMem d k = false) : d.find? (fun p => p.1 == k) = none := by
  rw [List.find?_eq_none]
  intro p hp
  have := List.any_eq_false.mp h p hp
  simp [this]

lemma dictGet_dictSet (d : List (String × Int)) (k : String) (v : Int) :
    dictGet (dictSet d k v) k = v := by
  unfold dictGet dictSet
  by_cases h : dictMem d k
  · rw [if_pos h, find?_map_replace, if_pos h]
  · rw [if_neg h, List.find?_append,
      find?_eq_none_of_not_dictMem d k (Bool.eq_false_iff.mpr h)]
    simp

lemma dictMem_dictSet (d : List (String × Int)) (k : String) (v : Int) :
    dictMem (dictSet d k v) k = true := by
  unfold dictSet
  by_cases h : dictMem d k
  · rw [if_pos h]
    rcases List.any_eq_true.mp h with ⟨p, hp, hpk⟩
    unfold dictMem
    rw [List.any_eq_true]
    exact ⟨(k, v), List.mem_map.mpr ⟨p, hp, by simp [hpk]⟩, by simp⟩
  · rw [if_neg h]
    unfold dictMem
    rw [List.any_eq_true]
    exact ⟨(k, v), List.mem_append_right _ (by simp), by simp⟩

lemma mem_of_mem_dictSet {d : List (String × Int)} {k : String} {v : Int}
    {p : String × Int} (hp : p ∈ dictSet d k v) : p = (k, v) ∨ p ∈ d := by
  unfold dictSet at hp
  split at hp
  · rcases List.mem_map.mp hp with ⟨q, hq, hqe⟩
    by_cases h : q.1 == k
    · rw [if_pos h] at hqe
      exact Or.inl hqe.symm
    · rw [if_neg h] at hqe
      exact Or.inr (hqe ▸ hq)
  · rcases List.mem_append.mp hp with h | h
    · exact Or.inr h
    · exact Or.inl (List.mem_singleton.mp h)

lemma mem_of_mem_dictDel {d : List (String × Int)} {k : String} {p : String × Int}
    (hp : p ∈ dictDel d k) : p ∈ d ∧ ¬ p.1 = k := by
  unfold dictDel at hp
  have h := List.mem_filter.mp hp
  refine ⟨h.1, ?_⟩
  have := h.2
  simp only [bne_iff_ne, ne_eq] at this
  exact this

lemma dictGet_nonneg {d : List (String × Int)} (h : ∀ p ∈ d, 0 < p.2) (k : String) :
    0 ≤ dictGet d k := by
  unfold dictGet
  cases hf : d.find? (fun p => p.1 == k) with
  | none => simp
  | some p => exact le_of_lt (h p (List.mem_of_find?_eq_some hf))

/-! ### Error classification helpers -/

def isInsufficientShares : Option AccountError → Bool
  | some (.insufficientShares _ _ _) => true
  | _ => false

/-! ### Claim C3 -/

/-- C3: `sellShares(symbol, q)` fails with `InsufficientShares` exactly when
`q > holdings.get(symbol, 0)`, and on any failure (including the subsequent
`PriceUnavailable` failure) holdings, balance and the transaction list are
left unchanged — the whole account state is the unchanged input. -/
theorem C3_theorem (a : Account) (sym : String) (q : Int) (priceOf : String → ℚ)
    (r ts1 ts2 : String) :
    (isInsufficientShares (a.sell_shares sym q priceOf r ts1 ts2).2 = true
      ↔ dictGet a.holdings sym < q)
    ∧ ((a.sell_shares sym q priceOf r ts1 ts2).2 ≠ none
      → (a.sell_shares sym q priceOf r ts1 ts2).1 = a) := by
  unfold Account.sell_shares
  by_cases h1 : dictGet a.holdings sym < q
  · rw [if_pos h1]
    simp [isInsufficientShares, h1]
  · rw [if_neg h1]
    by_cases h2 : priceOf sym = 0
    · rw [if_pos h2]
      simp [isInsufficientShares, h1]
    · rw [if_neg h2]
      by_cases h3 : dictMem a.holdings sym
      · rw [if_neg (by simpa using h3)]
        simp [isInsufficientShares, h1]
      · rw [if_pos (by simpa using h3)]
        simp [isInsufficientShares, h1]

/-- Witness for C3: on a fresh account, selling 5 shares of a symbol not
held fails and leaves the account unchanged. -/
theorem C3_witness :
    ((defaultAccount "warren").sell_shares "AAPL" 5 (fun _ => 200) "r" "t1" "t2").1
      = defaultAccount "warren" :=
  (C3_theorem (defaultAccount "warren") "AAPL" 5 (fun _ => 200) "r" "t1" "t2").2
    (by decide)

/-! ### Claim C4 -/

/-- C4: for an account with balance `b`, a positively resolved price `p` and
a positive quantity `q` with `p*(1+SPREAD)*q ≤ b`, a `buyShares` succeeds,
the new balance is exactly `b - p*(1+SPREAD)*q`, `holdings[symbol]` grows by
`q` (the entry created if absent), and exactly the one transaction with
quantity `q` and price `p*(1+SPREAD)` is appended. -/
theorem C4_theorem (a : Account) (sym : String) (q : Int) (priceOf : String → ℚ)
    (r ts1 ts2 : String) (hq : 0 < q) (hp : 0 < priceOf sym)
    (hcost : priceOf sym * (1 + SPREAD) * (q : ℚ) ≤ a.balance) :
    (a.buy_shares sym q priceOf r ts1 ts2).2 = none
    ∧ (a.buy_shares sym q priceOf r ts1 ts2).1.balance
      = a.balance - priceOf sym * (1 + SPREAD) * (q : ℚ)
    ∧ dictGet (a.buy_shares sym q priceOf r ts1 ts2).1.holdings sym
      = dictGet a.holdings sym + q
    ∧ dictMem (a.buy_shares sym q priceOf r ts1 ts2).1.holdings sym = true
    ∧ (a.buy_shares sym q priceOf r ts1 ts2).1.transactions
      = a.transactions ++ [⟨sym, q, priceOf sym * (1 + SPREAD), ts1, r⟩] := by
  have hp0 : ¬ priceOf sym = 0 := ne_of_gt hp
  have hnb : ¬ a.balance < priceOf sym * (1 + SPREAD) * (q : ℚ) := not_lt.mpr hcost
  unfold Account.buy_shares
  rw [if_neg hp0, if_neg hnb]
  refine ⟨rfl, rfl, ?_, ?_, rfl⟩
  · exact dictGet_dictSet _ _ _
  · exact dictMem_dictSet _ _ _

/-- Witness for C4, the spec scenario: a fresh account buying 10 shares at
resolved price 200 pays fill price 200.40 and ends with balance 7996. -/
theorem C4_witness :
    ((defaultAccount "warren").buy_shares "AAPL" 10 (fun _ => 200) "test" "t1" "t2").2 = none
    ∧ ((defaultAccount "warren").buy_shares "AAPL" 10 (fun _ => 200) "test" "t1" "t2").1.balance
      = 7996 := by
  have h := C4_theorem (defaultAccount "warren") "AAPL" 10 (fun _ => 200) "test" "t1" "t2"
    (by decide) (by norm_num)
    (by push_cast; norm_num [defaultAccount, INITIAL_BALANCE, SPREAD])
  refine ⟨h.1, ?_⟩
  rw [h.2.1]
  push_cast
  norm_num [defaultAccount, INITIAL_BALANCE, SPREAD]

/-! ### Claim C1 -/

/-- One Ledger operation, carrying the wall-clock and market-data readings
the source obtains through I/O while executing it. -/
inductive LedgerOp where
  | depositOp (amount : ℚ)
  | withdrawOp (amount : ℚ)
  | buyOp (symbol : String) (quantity : Int) (priceOf : String → ℚ)
      (rationale ts1 ts2 : String)
  | sellOp (symbol : String) (quantity : Int) (priceOf : String → ℚ)
      (rationale ts1 ts2 : String)

/-- Running one Ledger operation: the post-state is the mutated account on
success and the unchanged account when the source raises. -/
def applyOp (a : Account) : LedgerOp → Account
  | .depositOp amount => (a.deposit amount).1
  | .withdrawOp amount => (a.withdraw amount).1
  | .buyOp s q pf r t1 t2 => (a.buy_shares s q pf r t1 t2).1
  | .sellOp s q pf r t1 t2 => (a.sell_shares s q pf r t1 t2).1

/-- The account invariant of the claim: non-negative cash balance and a
strictly positive share count behind every present holdings key. -/
def accountInvariant (a : Account) : Prop :=
  0 ≤ a.balance ∧ ∀ p ∈ a.holdings, 0 < p.2

/-- Positivity restriction on one operation: buys and sells carry a
quantity of at least one share, and the resolved prices are non-negative. -/
def opValid : LedgerOp → Prop
  | .buyOp _ q pf _ _ _ => 1 ≤ q ∧ ∀ s, 0 ≤ pf s
  | .sellOp _ q pf _ _ _ => 1 ≤ q ∧ ∀ s, 0 ≤ pf s
  | _ => True

lemma deposit_preserves (a : Account) (amount : ℚ) (h : accountInvariant a) :
    accountInvariant (a.deposit amount).1 := by
  unfold Account.deposit
  by_cases hm : amount ≤ 0
  · rwa [if_pos hm]
  · rw [if_neg hm]
    exact ⟨add_nonneg h.1 (le_of_not_le hm), h.2⟩

lemma withdraw_preserves (a : Account) (amount : ℚ) (h : accountInvariant a) :
    accountInvariant (a.withdraw amount).1 := by
  unfold Account.withdraw
  by_cases hm : a.balance < amount
  · rwa [if_pos hm]
  · rw [if_neg hm]
    exact ⟨sub_nonneg.mpr (le_of_not_lt hm), h.2⟩

lemma buy_preserves (a : Account) (s : String) (q : Int) (pf : String → ℚ)
    (r t1 t2 : String) (h : accountInvariant a) (hq : 1 ≤ q) :
    accountInvariant (a.buy_shares s q pf r t1 t2).1 := by
  unfold Account.buy_shares
  by_cases hp : pf s = 0
  · rwa [if_pos hp]
  · rw [if_neg hp]
    by_cases hb : a.balance < pf s * (1 + SPREAD) * (q : ℚ)
    · rwa [if_pos hb]
    · rw [if_neg hb]
      refine ⟨sub_nonneg.mpr (le_of_not_lt hb), ?_⟩
      intro p hp'
      rcases mem_of_mem_dictSet hp' with hpe | hpd
      · rw [hpe]
        have h0 : 0 ≤ dictGet a.holdings s := dictGet_nonneg h.2 s
        omega
      · exact h.2 p hpd

lemma sell_preserves (a : Account) (s : String) (q : Int) (pf : String → ℚ)
    (r t1 t2 : String) (h : accountInvariant a) (hq : 1 ≤ q) (hpf : ∀ x, 0 ≤ pf x) :
    accountInvariant (a.sell_shares s q pf r t1 t2).1 := by
  unfold Account.sell_shares
  by_cases h1 : dictGet a.holdings s < q
  · rwa [if_pos h1]
  · rw [if_neg h1]
    by_cases h2 : pf s = 0
    · rwa [if_pos h2]
    · rw [if_neg h2]
      by_cases h3 : dictMem a.holdings s
      · rw [if_neg (by simpa using h3)]
        unfold Account.report_state
        dsimp only
        constructor
        · have hpr : 0 ≤ pf s * (1 - SPREAD) * (q : ℚ) := by
            have hq0 : (0 : ℚ) ≤ (q : ℚ) := by exact_mod_cast le_trans zero_le_one hq
            have hsp : (0 : ℚ) ≤ 1 - SPREAD := by norm_num [SPREAD]
            exact mul_nonneg (mul_nonneg (hpf s) hsp) hq0
          exact add_nonneg h.1 hpr
        · intro p hp'
          by_cases hn : dictGet a.holdings s - q = 0
          · rw [if_pos hn] at hp'
            rcases mem_of_mem_dictDel hp' with ⟨hmem, hkey⟩
            rcases mem_of_mem_dictSet hmem with hpe | hpd
            · exact absurd (by rw [hpe]) hkey
            · exact h.2 p hpd
          · rw [if_neg hn] at hp'
            rcases mem_of_mem_dictSet hp' with hpe | hpd
            · rw [hpe]
              simp only [not_lt] at h1
              omega
            · exact h.2 p hpd
      · rw [if_pos (by simpa using h3)]
        exact h

lemma applyOp_preserves (a : Account) (op : LedgerOp) (h : accountInvariant a)
    (hop : opValid op) : accountInvariant (applyOp a op) := by
  cases op with
  | depositOp amount => exact deposit_preserves a amount h
  | withdrawOp amount => exact withdraw_preserves a amount h
  | buyOp s q pf r t1 t2 => exact buy_preserves a s q pf r t1 t2 h hop.1
  | sellOp s q pf r t1 t2 => exact sell_preserves a s q pf r t1 t2 h hop.1 hop.2

/-- C1 (amended): for every account satisfying the invariant and every
sequence of Ledger operations whose buy/sell quantities are at least 1 and
whose resolved prices are non-negative, the invariant `balance ≥ 0` and
`holdings[sym] > 0` for every present key is preserved.  (The unrestricted
claim fails: see the quantity-0 counterexample.) -/
theorem C1_theorem (a : Account) (ops : List LedgerOp) (hinv : accountInvariant a)
    (hops : ∀ op ∈ ops, opValid op) : accountInvariant (ops.foldl applyOp a) := by
  induction ops generalizing a with
  | nil => exact hinv
  | cons op tl ih =>
      rw [List.foldl_cons]
      exact ih (applyOp a op)
        (applyOp_preserves a op hinv (hops op (List.mem_cons_self op tl)))
        (fun x hx => hops x (List.mem_cons_of_mem op hx))

/-- Witness for C1: a fresh account buying then selling 10 shares keeps the
invariant. -/
theorem C1_witness :
    accountInvariant
      ([LedgerOp.buyOp "AAPL" 10 (fun _ => 200) "r" "t1" "t2",
        LedgerOp.sellOp "AAPL" 10 (fun _ => 210) "r" "t3" "t4"].foldl applyOp
        (defaultAccount "warren")) := by
  apply C1_theorem (defaultAccount "warren") _ (by constructor <;> decide)
  intro op hop
  simp only [List.mem_cons, List.not_mem_nil, or_false] at hop
  rcases hop with rfl | rfl
  · exact ⟨by decide, fun s => by norm_num⟩
  · exact ⟨by decide, fun s => by norm_num⟩

/-- Counterexample to C1 as stated: `buy_shares` accepts quantity 0 (its
cost, 0, does not exceed the balance) and stores `holdings["AAPL"] = 0`,
an entry that is present with share count 0 — violating the claimed
invariant that a zero holding is never stored. -/
theorem C1_counterexample :
    ((defaultAccount "warren").buy_shares "AAPL" 0 (fun _ => 200) "r" "t1" "t2").1.holdings
      = [("AAPL", 0)]
    ∧ ¬ accountInvariant
        ((defaultAccount "warren").buy_shares "AAPL" 0 (fun _ => 200) "r" "t1" "t2").1 := by
  have hstep :
      ((defaultAccount "warren").buy_shares "AAPL" 0 (fun _ => 200) "r" "t1" "t2").1.holdings
        = [("AAPL", 0)] := by
    unfold Account.buy_shares
    rw [if_neg (by norm_num), if_neg (by push_cast; norm_num [defaultAccount, INITIAL_BALANCE])]
    simp [Account.report_state, defaultAccount, dictSet, dictMem, dictGet]
  refine ⟨hstep, fun hinv => ?_⟩
  have := hinv.2 ("AAPL", 0) (by rw [hstep]; exact List.mem_singleton.mpr rfl)
  omega

/-! ### Claim C2 -/

lemma buy_shares_ok (a : Account) (sym : String) (q : Int) (priceOf : String → ℚ)
    (r ts1 ts2 : String) (hp : ¬ priceOf sym = 0)
    (hcost : priceOf sym * (1 + SPREAD) * (q : ℚ) ≤ a.balance) :
    a.buy_shares sym q priceOf r ts1 ts2
      = (Account.report_state
          { a with
            holdings := dictSet a.holdings sym (dictGet a.holdings sym + q),
            transactions := a.transactions ++ [⟨sym, q, priceOf sym * (1 + SPREAD), ts1, r⟩],
            balance := a.balance - priceOf sym * (1 + SPREAD) * (q : ℚ) } priceOf ts2,
        none) := by
  unfold Account.buy_shares
  rw [if_neg hp, if_neg (not_lt.mpr hcost)]

lemma buy_shares_insufficient (a : Account) (sym : String) (q : Int)
    (priceOf : String → ℚ) (r ts1 ts2 : String) (hp : ¬ priceOf sym = 0)
    (hcost : a.balance < priceOf sym * (1 + SPREAD) * (q : ℚ)) :
    a.buy_shares sym q priceOf r ts1 ts2 = (a, some .insufficientFunds) := by
  unfold Account.buy_shares
  rw [if_neg hp, if_pos hcost]

/-- C2 (amended): for a BUY decision with a symbol, requested quantity
`q > 0` and positive resolved price `p`, `execute_decision` clamps the
quantity to `min q ⌊balance / p⌋` — the spread-exclusive affordability
estimate `int(balance // current_price)` of the source, not
`⌊balance / (p*(1+SPREAD))⌋` — executing the buy at that size when
`⌊balance / p⌋ ≥ 1` (the executed buy succeeds only when the
spread-inclusive cost fits the balance, and otherwise fails with
`InsufficientFunds`, leaving the account unchanged), and performing no
trade with a reported reason when `⌊balance / p⌋ = 0`. -/
theorem C2_theorem (a : Account) (sym : String) (q : Int) (r : String)
    (priceOf : String → ℚ) (ts1 ts2 : String)
    (hq : 0 < q) (hs : ¬ sym = "") (hp : 0 < priceOf sym) :
    (⌊a.balance / priceOf sym⌋ = 0 →
      execute_decision a ⟨"BUY", sym, q, r⟩ priceOf ts1 ts2 = (a, .cannotAfford sym))
    ∧ (¬ ⌊a.balance / priceOf sym⌋ = 0 →
        (priceOf sym * (1 + SPREAD) * ((min q ⌊a.balance / priceOf sym⌋ : Int) : ℚ)
            ≤ a.balance →
          (execute_decision a ⟨"BUY", sym, q, r⟩ priceOf ts1 ts2).2
            = (if min q ⌊a.balance / priceOf sym⌋ < q
               then .buyExecutedPartial q (min q ⌊a.balance / priceOf sym⌋)
               else .buyExecuted (min q ⌊a.balance / priceOf sym⌋))
          ∧ (execute_decision a ⟨"BUY", sym, q, r⟩ priceOf ts1 ts2).1.balance
            = a.balance
              - priceOf sym * (1 + SPREAD) * ((min q ⌊a.balance / priceOf sym⌋ : Int) : ℚ))
        ∧ (a.balance
              < priceOf sym * (1 + SPREAD) * ((min q ⌊a.balance / priceOf sym⌋ : Int) : ℚ) →
            execute_decision a ⟨"BUY", sym, q, r⟩ priceOf ts1 ts2
              = (a, .tradeFailed .insufficientFunds))) := by
  have hp0 : ¬ priceOf sym = 0 := ne_of_gt hp
  refine ⟨?_, fun hnz => ⟨fun hcost => ?_, fun hcost => ?_⟩⟩
  · intro h0
    unfold execute_decision
    dsimp only
    rw [if_neg (by decide : ¬ ("BUY" : String) = "HOLD"), if_pos ⟨rfl, hs, hq⟩,
      if_pos hp, if_pos h0]
  · unfold execute_decision
    dsimp only
    rw [if_neg (by decide : ¬ ("BUY" : String) = "HOLD"), if_pos ⟨rfl, hs, hq⟩,
      if_pos hp, if_neg hnz, buy_shares_ok a sym _ priceOf r ts1 ts2 hp0 hcost]
    dsimp only
    constructor
    · by_cases hlt : min q ⌊a.balance / priceOf sym⌋ < q
      · rw [if_pos hlt, if_pos hlt]
      · rw [if_neg hlt, if_neg hlt]
    · by_cases hlt : min q ⌊a.balance / priceOf sym⌋ < q
      · rw [if_pos hlt]
        rfl
      · rw [if_neg hlt]
        rfl
  · unfold execute_decision
    dsimp only
    rw [if_neg (by decide : ¬ ("BUY" : String) = "HOLD"), if_pos ⟨rfl, hs, hq⟩,
      if_pos hp, if_neg hnz,
      buy_shares_insufficient a sym _ priceOf r ts1 ts2 hp0 hcost]

/-- Witness for C2: a fresh account with balance 10000 executing a BUY of
10 shares at price 200 buys the full 10 shares. -/
theorem C2_witness :
    (execute_decision (defaultAccount "warren") ⟨"BUY", "AAPL", 10, "r"⟩
        (fun _ => 200) "t1" "t2").2 = .buyExecuted 10 := by
  have h := C2_theorem (defaultAccount "warren") "AAPL" 10 "r" (fun _ => 200) "t1" "t2"
    (by decide) (by decide) (by norm_num)
  have hfloor : ⌊(defaultAccount "warren").balance / (fun _ : String => (200 : ℚ)) "AAPL"⌋
      = 50 := by
    norm_num [defaultAccount, INITIAL_BALANCE, Int.floor_eq_iff]
  have h2 := (h.2 (by rw [hfloor]; decide)).1
    (by rw [hfloor]; push_cast; norm_num [defaultAccount, INITIAL_BALANCE, SPREAD])
  rw [h2.1, hfloor]
  decide

/-- Counterexample to C2 as stated: with balance 1000 and price 999, the
spec's clamp `⌊balance / (price*(1+SPREAD))⌋` is 0, so the claim requires
no trade and a reported reason; the code instead clamps to
`⌊balance / price⌋ = 1`, executes the buy, and that buy fails with
`InsufficientFunds` (cost 1000.998 > 1000). -/
theorem C2_counterexample :
    (execute_decision ⟨"t", 1000, "", [], [], []⟩ ⟨"BUY", "ACME", 1, "r"⟩
        (fun _ => 999) "t1" "t2").2 = .tradeFailed .insufficientFunds
    ∧ ⌊(1000 : ℚ) / (999 * (1 + SPREAD))⌋ = 0 := by
  constructor
  · unfold execute_decision
    dsimp only
    rw [if_neg (by decide : ¬ ("BUY" : String) = "HOLD"),
      if_pos (⟨rfl, by decide, by decide⟩ :
        ("BUY" : String) = "BUY" ∧ ¬ ("ACME" : String) = "" ∧ (0 : ℤ) < 1),
      if_pos (show (0:ℚ) < 999 by norm_num)]
    have hfloor : ⌊(1000 : ℚ) / 999⌋ = 1 := by norm_num [Int.floor_eq_iff]
    rw [hfloor, if_neg (by decide : ¬ (1:ℤ) = 0), min_self,
      buy_shares_insufficient _ "ACME" 1 _ "r" "t1" "t2" (by norm_num)
        (by push_cast; norm_num [SPREAD])]
  · norm_num [SPREAD, Int.floor_eq_iff]

/-! ### Claim C5 -/

/-- Counterexample to C5 as stated: the `FORCE_MARKET_OPEN` override is
tested before the weekend check, so with the override on (a configuration
the source itself falls back to when `config.py` is missing),
`is_market_open` returns true on a Saturday even when the upstream source
reports the market closed. -/
theorem C5_counterexample :
    is_market_open true 5 3 0 (.polygonOk false) = true := rfl

/-- C5 (amended): whenever the `FORCE_MARKET_OPEN` override is off, every
Saturday or Sunday timestamp makes `is_market_open` return false,
regardless of the hour and of any upstream market-status response. -/
theorem C5_theorem (weekday hour minute : ℕ) (upstream : UpstreamStatus)
    (h : weekday = 5 ∨ weekday = 6) :
    is_market_open false weekday hour minute upstream = false := by
  rcases h with rfl | rfl <;> rfl

/-- Witness for C5: Saturday 11:00 with Polygon reporting open is still
closed when the override is off. -/
theorem C5_witness : is_market_open false 5 11 0 (.polygonOk true) = false :=
  C5_theorem 5 11 0 (.polygonOk true) (Or.inl rfl)

/-! ### Claim C6 -/

/-- Counterexample to C6 as stated: at 10:30 ET the trader keyed `"flash"`
is inside both its trade window (within 30 minutes of 10:00) and its
rebalance window (within 15 minutes of 10:30) — the two windows collide. -/
theorem C6_counterexample :
    should_trade_now "flash" 10 30 = true
    ∧ should_rebalance_now "flash" 10 30 = true := by
  constructor
  · unfold should_trade_now
    rw [if_pos rfl, if_pos (Or.inl (by norm_num [hourDecimal, abs_le]))]
  · unfold should_rebalance_now
    rw [if_pos rfl, if_pos (Or.inl (by norm_num [hourDecimal, abs_le]))]

/-- C6 (amended): for every trader other than the one keyed `"flash"`, the
trade and rebalance windows never hold at the same wall-clock time: warren
and camillo trade in 15:30-16:00 and rebalance in 16:15-16:30, and every
other name matches no window at all. -/
theorem C6_theorem (trader_name : String) (hour minute : ℕ)
    (h : ¬ trader_name = "flash") :
    ¬ (should_trade_now trader_name hour minute = true
        ∧ should_rebalance_now trader_name hour minute = true) := by
  unfold should_trade_now should_rebalance_now
  rw [if_neg h, if_neg h]
  by_cases h2 : trader_name = "warren" ∨ trader_name = "camillo"
  · rw [if_pos h2, if_pos h2]
    rintro ⟨ht, hr⟩
    by_cases hc : 31/2 ≤ hourDecimal hour minute ∧ hourDecimal hour minute ≤ 16
    · by_cases hc' : 65/4 ≤ hourDecimal hour minute ∧ hourDecimal hour minute ≤ 33/2
      · have hx := hc.2
        have hy := hc'.1
        linarith
      · rw [if_neg hc'] at hr
        exact Bool.false_ne_true hr
    · rw [if_neg hc] at ht
      exact Bool.false_ne_true ht
  · rw [if_neg h2, if_neg h2]
    rintro ⟨ht, _⟩
    exact Bool.false_ne_true ht

/-- Witness for C6: warren at noon is in neither window. -/
theorem C6_witness :
    ¬ (should_trade_now "warren" 12 0 = true
        ∧ should_rebalance_now "warren" 12 0 = true) :=
  C6_theorem "warren" 12 0 (by decide)

/-! ### Claim C10 -/

/-- C10: `"pavel"` is one of the three traders `create_traders`
instantiates, yet `should_trade_now` and `should_rebalance_now` return
false for `"pavel"` at every wall-clock time, because their intraday
branches are keyed to the name `"flash"` and the daily branches only to
`"warren"` and `"camillo"`. -/
theorem C10_theorem :
    "pavel" ∈ trader_names
    ∧ ∀ hour minute : ℕ, should_trade_now "pavel" hour minute = false
        ∧ should_rebalance_now "pavel" hour minute = false := by
  refine ⟨by decide, fun hour minute => ⟨?_, ?_⟩⟩
  · unfold should_trade_now
    rw [if_neg (by decide : ¬ ("pavel" : String) = "flash"),
      if_neg (by decide :
        ¬ (("pavel" : String) = "warren" ∨ ("pavel" : String) = "camillo"))]
  · unfold should_rebalance_now
    rw [if_neg (by decide : ¬ ("pavel" : String) = "flash"),
      if_neg (by decide :
        ¬ (("pavel" : String) = "warren" ∨ ("pavel" : String) = "camillo"))]

/-! ### Claim C9 -/

/-- C9: `Account.get` yields the same freshly-reset account — balance
10000, empty strategy, holdings and transactions — whether the storage
read found no row or raised an arbitrary error: a persistence read failure
is indistinguishable from a first lookup. -/
theorem C9_theorem (name msg ts : String) (priceOf : String → ℚ) :
    Account.get name (.readError msg) priceOf ts = Account.get name .noRow priceOf ts
    ∧ (Account.get name (.readError msg) priceOf ts).balance = 10000
    ∧ (Account.get name (.readError msg) priceOf ts).strategy = ""
    ∧ (Account.get name (.readError msg) priceOf ts).holdings = []
    ∧ (Account.get name (.readError msg) priceOf ts).transactions = [] := by
  refine ⟨rfl, ?_, ?_, ?_, ?_⟩ <;>
    simp [Account.get, Account.update_portfolio_value_series, defaultAccount,
      INITIAL_BALANCE]

/-! ### Claim C7 -/

/-- No two consecutive entries of a valuation series share a timestamp. -/
def noConsecDupTs : List (String × ℚ) → Prop
  | [] => True
  | [_] => True
  | p :: q :: rest => ¬ p.1 = q.1 ∧ noConsecDupTs (q :: rest)

lemma noConsecDupTs_append : ∀ (l : List (String × ℚ)) (x : String × ℚ),
    noConsecDupTs l → (∀ y, l.getLast? = some y → ¬ y.1 = x.1) →
    noConsecDupTs (l ++ [x])
  | [], _, _, _ => trivial
  | [a], x, _, hx => ⟨hx a rfl, trivial⟩
  | a :: b :: rest, x, h, hx => by
      refine ⟨h.1, noConsecDupTs_append (b :: rest) x h.2 ?_⟩
      intro y hy
      exact hx y (by rw [List.getLast?_cons_cons]; exact hy)

lemma update_series_preserves (a : Account) (pf : String → ℚ) (ts : String)
    (h : noConsecDupTs a.portfolio_value_time_series) :
    noConsecDupTs
      (a.update_portfolio_value_series pf ts).portfolio_value_time_series := by
  unfold Account.update_portfolio_value_series
  split
  · next hcond =>
      apply noConsecDupTs_append _ _ h
      intro y hy
      rcases hcond with hnil | hne
      · rw [hnil] at hy
        cases hy
      · intro hEq
        apply hne
        rw [hy]
        simpa using hEq
  · exact h

/-- A sequence of `update_portfolio_value_series` calls, each carrying the
prices and timestamp read while it runs. -/
def applyValuationUpdates (a : Account) (samples : List ((String → ℚ) × String)) :
    Account :=
  samples.foldl (fun acc s => acc.update_portfolio_value_series s.1 s.2) a

/-- C7 (amended): samples appended through
`update_portfolio_value_series` never produce two consecutive entries with
an identical timestamp string; the unconditional append inside `report`
is excluded, since it violates the claim (see the counterexample). -/
theorem C7_theorem (a : Account) (samples : List ((String → ℚ) × String))
    (h : noConsecDupTs a.portfolio_value_time_series) :
    noConsecDupTs
      (applyValuationUpdates a samples).portfolio_value_time_series := by
  induction samples generalizing a with
  | nil => exact h
  | cons s tl ih =>
      unfold applyValuationUpdates
      rw [List.foldl_cons]
      exact ih _ (update_series_preserves a s.1 s.2 h)

/-- Witness for C7: two updates with the same timestamp on a fresh account
leave the series duplicate-free (the second append is suppressed). -/
theorem C7_witness :
    noConsecDupTs
      (applyValuationUpdates (defaultAccount "warren")
        [(fun _ => 0, "2025-01-02 10:00:00"),
         (fun _ => 0, "2025-01-02 10:00:00")]).portfolio_value_time_series :=
  C7_theorem (defaultAccount "warren") _ trivial

/-- Counterexample to C7 as stated: `report` appends a valuation sample
unconditionally, so two `report` calls within the same second (identical
timestamp string) leave two consecutive entries with the same timestamp. -/
theorem C7_counterexample :
    (((defaultAccount "warren").report_state (fun _ => 0)
          "2025-01-02 10:00:00").report_state (fun _ => 0)
        "2025-01-02 10:00:00").portfolio_value_time_series.map Prod.fst
      = ["2025-01-02 10:00:00", "2025-01-02 10:00:00"]
    ∧ ¬ noConsecDupTs
        (((defaultAccount "warren").report_state (fun _ => 0)
            "2025-01-02 10:00:00").report_state (fun _ => 0)
          "2025-01-02 10:00:00").portfolio_value_time_series := by
  refine ⟨rfl, fun h => ?_⟩
  exact h.1 rfl

/-! ### Claim C8 -/

/-- After one actual insert of a successful record under a key absent from
the table, a later `check_api_cache` with that key hits exactly when the
UTC `created_at` stamp `t0` is newer than the local-clock cutoff
`now_local - ttl`, and the hit's reported age is `now_utc - t0`. -/
lemma check_after_save (db : List ApiRecord) (provider function_name : String)
    (params : List (String × String)) (payload : String)
    (ttl t0 now_local now_utc : Int)
    (hfresh : ∀ rec ∈ db,
      keyMatches rec provider function_name (generate_params_hash params) = false) :
    check_api_cache (save_api_call db provider function_name params payload true t0)
        provider function_name params ttl now_local now_utc
      = (if now_local - ttl < t0 then some (payload, now_utc - t0) else none) := by
  have hsave : save_api_call db provider function_name params payload true t0
      = db ++ [⟨provider, function_name, generate_params_hash params, payload, true, t0⟩] := by
    unfold save_api_call
    rw [if_neg ?hc]
    case hc =>
      intro hany
      rcases List.any_eq_true.mp hany with ⟨rec, hrec, hmat⟩
      rw [hfresh rec hrec] at hmat
      cases hmat
  have hfilter : (db.filter (fun rec =>
      keyMatches rec provider function_name (generate_params_hash params)
        && decide (now_local - ttl < rec.created_at) && rec.success)) = [] := by
    rw [List.filter_eq_nil_iff]
    intro rec hrec
    simp [hfresh rec hrec]
  rw [hsave]
  unfold check_api_cache
  dsimp only
  rw [List.filter_append, hfilter, List.nil_append]
  by_cases hcut : now_local - ttl < t0
  · have hpred : (keyMatches
          ⟨provider, function_name, generate_params_hash params, payload, true, t0⟩
          provider function_name (generate_params_hash params)
        && decide (now_local - ttl < (⟨provider, function_name,
            generate_params_hash params, payload, true, t0⟩ : ApiRecord).created_at)
        && (⟨provider, function_name, generate_params_hash params, payload, true,
            t0⟩ : ApiRecord).success) = true := by
      simp [keyMatches]
      omega
    have hsingle : List.filter (fun r =>
        keyMatches r provider function_name (generate_params_hash params)
          && decide (now_local - ttl < r.created_at) && r.success)
        [(⟨provider, function_name, generate_params_hash params, payload, true,
          t0⟩ : ApiRecord)]
      = [⟨provider, function_name, generate_params_hash params, payload, true, t0⟩] := by
      simp only [List.filter_cons, List.filter_nil]
      rw [if_pos hpred]
    rw [hsingle, if_pos hcut]
    rfl
  · have hpred : (keyMatches
          ⟨provider, function_name, generate_params_hash params, payload, true, t0⟩
          provider function_name (generate_params_hash params)
        && decide (now_local - ttl < (⟨provider, function_name,
            generate_params_hash params, payload, true, t0⟩ : ApiRecord).created_at)
        && (⟨provider, function_name, generate_params_hash params, payload, true,
            t0⟩ : ApiRecord).success) = false := by
      simp [keyMatches]
      omega
    have hsingle : List.filter (fun r =>
        keyMatches r provider function_name (generate_params_hash params)
          && decide (now_local - ttl < r.created_at) && r.success)
        [(⟨provider, function_name, generate_params_hash params, payload, true,
          t0⟩ : ApiRecord)]
      = [] := by
      simp only [List.filter_cons, List.filter_nil]
      rw [if_neg (by simp [hpred])]
    rw [hsingle, if_neg hcut]
    rfl

/-- Counterexample to C8 as stated: on a host whose local clock is 5 hours
behind UTC (`now_local = now_utc - 18000`, e.g. US Eastern standard time),
a check made 100 seconds after a save with TTL 60 — well past expiry —
still returns a hit, and its reported age 100 is not below the TTL: the
local-clock cutoff of database.py line 242, compared against the UTC
`created_at`, admits records up to `ttl + 18000` seconds old, so both the
"miss after ttl" and the "age < ttl" clauses of the claim fail. -/
theorem C8_counterexample :
    check_api_cache
        (save_api_call [] "polygon" "get_last_trade" [("symbol", "AAPL")]
          "payload" true 0)
        "polygon" "get_last_trade" [("symbol", "AAPL")] 60 (100 - 18000) 100
      = some ("payload", 100)
    ∧ ¬ ((100 : Int) - 0 < 60) := by
  constructor
  · rw [check_after_save [] "polygon" "get_last_trade" [("symbol", "AAPL")]
        "payload" 60 0 (100 - 18000) 100 (by simp), if_pos (by norm_num)]
    rfl
  · norm_num

/-- C8 (amended): the staleness cutoff is computed from the host-local
`datetime.now()` while `created_at` and the reported age are UTC, so the
claim holds on a host whose local clock reads UTC — both clock readings
taken by one `check` then coincide: after one successful `save` of a
payload under a key not yet in the table, every `check` with the identical
key within `ttl` seconds of the save returns a hit carrying that payload
with reported age below `ttl` (shown for two such calls), and a `check`
once `ttl` seconds have elapsed returns a miss.  On a non-UTC host the hit
window is shifted by the UTC offset and the claim fails (see the
counterexample). -/
theorem C8_theorem (db : List ApiRecord) (provider function_name : String)
    (params : List (String × String)) (payload : String) (ttl t0 t1 t2 : Int)
    (hfresh : ∀ rec ∈ db,
      keyMatches rec provider function_name (generate_params_hash params) = false)
    (h1a : t0 ≤ t1) (h1b : t1 - t0 < ttl) (h2a : t0 ≤ t2) (h2b : t2 - t0 < ttl) :
    check_api_cache (save_api_call db provider function_name params payload true t0)
        provider function_name params ttl t1 t1 = some (payload, t1 - t0)
    ∧ check_api_cache (save_api_call db provider function_name params payload true t0)
        provider function_name params ttl t2 t2 = some (payload, t2 - t0)
    ∧ ∀ t3 : Int, ttl ≤ t3 - t0 →
        check_api_cache (save_api_call db provider function_name params payload true t0)
          provider function_name params ttl t3 t3 = none := by
  refine ⟨?_, ?_, ?_⟩
  · rw [check_after_save db provider function_name params payload ttl t0 t1 t1 hfresh,
      if_pos (by omega)]
  · rw [check_after_save db provider function_name params payload ttl t0 t2 t2 hfresh,
      if_pos (by omega)]
  · intro t3 ht3
    rw [check_after_save db provider function_name params payload ttl t0 t3 t3 hfresh,
      if_neg (by omega)]

/-- Witness for C8: on a UTC host, a save at second 100 with TTL 60 is a
hit at second 159 with age 59. -/
theorem C8_witness :
    check_api_cache
        (save_api_call [] "polygon" "get_last_trade" [("symbol", "AAPL")]
          "payload" true 100)
        "polygon" "get_last_trade" [("symbol", "AAPL")] 60 159 159
      = some ("payload", 59) :=
  (C8_theorem [] "polygon" "get_last_trade" [("symbol", "AAPL")] "payload" 60 100 100 159
      (by simp) (by decide) (by decide) (by decide) (by decide)).2.1

end TradingSystem
